import Mathlib

/-!
Shallow embedding of the recipeBook REST API core (query/filter engine,
pagination planner, ownership guard, registration, save-toggle), translated
from the TypeScript sources, together with theorems settling the spec claims.

Sources embedded:
- routes file with pagination (src/unnamed/part_002): GET /recipes filter
  builder and pagination envelope, POST /recipes, PUT/DELETE /recipes/:id,
  POST /recipes/:id/save;
- auth routes (src/unnamed/part_000): POST /register;
- models (src/src/model/Recipe.ts, src/src/model/Users.ts).

Strings are modelled over their character lists so that every definition is
executable by kernel reduction.  JS string primitives (`trim`, `toLowerCase`,
`split`, truthiness, `||`) are given explicit character-level definitions
matching their ECMAScript behaviour on the ASCII data this API handles.
-/

namespace RecipeBook

/-! ## JS string primitives -/

/-- Whitespace recognised by JS `trim` (ASCII portion). -/
def isJsWhitespace (c : Char) : Bool :=
  c = ' ' || c = '\t' || c = '\n' || c = '\r' || c = '\x0b' || c = '\x0c'

/-- ASCII lowercasing of one character, as JS `toLowerCase` acts on ASCII. -/
def asciiToLower (c : Char) : Char :=
  if 'A' ≤ c && c ≤ 'Z' then Char.ofNat (c.toNat + 32) else c

/-- JS `s.toLowerCase()` (ASCII). -/
def strToLower (s : String) : String :=
  String.mk (s.data.map asciiToLower)

/-- JS `s.trim()`: strip leading and trailing whitespace. -/
def strTrim (s : String) : String :=
  String.mk (((s.data.dropWhile isJsWhitespace).reverse.dropWhile
    isJsWhitespace).reverse)

/-- JS `s.split(sep)` over the character list: cut at every separator,
keeping empty fields.  `splitOnCharAux cs acc` processes the remaining
characters `cs` with the current (reversed) field `acc`. -/
def splitOnCharAux (sep : Char) : List Char → List Char → List (List Char)
  | [], acc => [acc.reverse]
  | c :: rest, acc =>
      if c = sep then acc.reverse :: splitOnCharAux sep rest []
      else splitOnCharAux sep rest (c :: acc)

/-- JS `s.split(sep)` for a one-character separator.  `"".split(sep)` is
`[""]`, matching JS. -/
def strSplitOn (s : String) (sep : Char) : List String :=
  (splitOnCharAux sep s.data []).map String.mk

/-- JS truthiness of a string: non-empty. -/
def strIsTruthy (s : String) : Bool :=
  !s.data.isEmpty

/-- JS `x || dflt` on an optional string: `undefined` and `""` are falsy. -/
def jsOrString (o : Option String) (dflt : String) : String :=
  match o with
  | none => dflt
  | some s => if strIsTruthy s then s else dflt

/-- JS truthiness of an optional string: present and non-empty. -/
def optTruthy (o : Option String) : Bool :=
  match o with
  | none => false
  | some s => strIsTruthy s

end RecipeBook

namespace RecipeBook

/-! ## Normalizer (part_002, lines 49-57 and 60-68)

`raw.split(',').map(x => x.trim().toLowerCase())` — note the source keeps
empty fields: there is no filtering of empty tokens after trimming. -/

/-- Token normalization as written in the source: split on `,`, then trim and
lowercase each field.  Empty fields are kept. -/
def normalizeTokens (raw : String) : List String :=
  (strSplitOn raw ',').map (fun t => strToLower (strTrim t))

/-- Normalizer following the spec's words in section 4.1: "an ordered sequence
of non-empty trimmed lowercase tokens split on `,`" — the same map but with
empty tokens dropped.  Used only to compare against `normalizeTokens`. -/
def specNormalizeTokens (raw : String) : List String :=
  ((strSplitOn raw ',').map (fun t => strToLower (strTrim t))).filter
    (fun t => strIsTruthy t)

/-! ## Filter builder (part_002, lines 30-68)

`const ingredientsFilterType = (req.query.any as string) || 'false'` and
`const isAny = ingredientsFilterType.toLowerCase() === 'true'`; an absent or
empty flag therefore means ALL mode.  A dimension's constraint is added only
when the raw comma-separated string is truthy. -/

/-- Mode flag: `isAny = ((req.query.any as string) || 'false').toLowerCase() === 'true'`. -/
def isAnyTrue (flag : Option String) : Bool :=
  strToLower (jsOrString flag "false") == "true"

/-- A per-dimension MongoDB constraint: `$all` (ALL mode) or `$in` (ANY mode). -/
inductive TokenConstraint where
  | all (toks : List String)
  | anyOf (toks : List String)
deriving Repr, DecidableEq

/-- Constraint for one dimension (ingredients or tags), as built at
part_002 lines 49-57 (resp. 60-68): present only when the raw string is
truthy; `$in` when the mode flag lowercases to `'true'`, else `$all`. -/
def tokenConstraint (raw : Option String) (flag : Option String) :
    Option TokenConstraint :=
  if optTruthy raw then
    let toks := normalizeTokens (raw.getD "")
    some (if isAnyTrue flag then .anyOf toks else .all toks)
  else
    none

/-- Reference to a stored document (a MongoDB ObjectId), kept distinct from
plain strings because JS strict equality distinguishes the two types. -/
structure ObjectRef where
  oid : String
deriving Repr, DecidableEq

/-- A stored recipe document (recipeSchema in src/src/model/Recipe.ts:
title, description, ingredients, tags, instructions, createdBy as an
ObjectId reference, createdAt). -/
structure RecipeDoc where
  id : String
  title : String
  description : String
  ingredients : List String
  tags : List String
  instructions : String
  createdBy : ObjectRef
  createdAt : Nat
deriving Repr, DecidableEq

/-- The filter object built by GET /recipes in part_002 (lines 46-68): only
the `ingredients` and `tags` keys are ever assigned; the parsed `createdBy`
query parameter (line 31) is never added to it. -/
structure RecipesFilter where
  ingredients : Option TokenConstraint
  tags : Option TokenConstraint
deriving Repr, DecidableEq

/-- GET /recipes filter construction (part_002 lines 30-68).  The `createdBy`
argument mirrors the query parameter parsed at line 31; the route body never
assigns it into the filter object. -/
def buildRecipesFilter (ingredientsRaw : Option String) (anyFlag : Option String)
    (tagsRaw : Option String) (tagsAnyFlag : Option String)
    (createdBy : Option String) : RecipesFilter :=
  let _ := createdBy
  { ingredients := tokenConstraint ingredientsRaw anyFlag
    tags := tokenConstraint tagsRaw tagsAnyFlag }

/-! ## Storage collaborator semantics for `$all` / `$in`

Per the storage interface (spec section 1): operators equivalent to
"field contains all of set" (`$all`) and "field contains any of set"
(`$in` over an array field). -/

/-- Whether a stored string-array field satisfies one constraint. -/
def matchesConstraint (stored : List String) : TokenConstraint → Bool
  | .all q => q.all (fun t => stored.contains t)
  | .anyOf q => q.any (fun t => stored.contains t)

/-- An absent constraint matches everything on that axis. -/
def matchesOpt (stored : List String) : Option TokenConstraint → Bool
  | none => true
  | some c => matchesConstraint stored c

/-- Whether a recipe document satisfies the combined GET /recipes filter. -/
def matchesFilter (r : RecipeDoc) (f : RecipesFilter) : Bool :=
  matchesOpt r.ingredients f.ingredients && matchesOpt r.tags f.tags

end RecipeBook

namespace RecipeBook

/-! ## Pagination planner (part_002, lines 35-43 and 86-95)

`const page = parseInt(req.query.page as string) || 1` — JS `parseInt`
skips leading whitespace, consumes an optional sign and an optional `0x`/`0X`
hex prefix, then the longest run of digits of the base; no digits means
`NaN`.  `NaN || 1` and `0 || 1` are `1`; every other number, including
negative ones, passes through the `||` unchanged. -/

/-- Value of one character as a digit of the given base (supports base 10
and base 16 as used by JS `parseInt` with no explicit radix). -/
def digitValue (base : Nat) (c : Char) : Option Nat :=
  let v : Option Nat :=
    if '0' ≤ c && c ≤ '9' then some (c.toNat - 48)
    else if 'a' ≤ c && c ≤ 'f' then some (c.toNat - 87)
    else if 'A' ≤ c && c ≤ 'F' then some (c.toNat - 55)
    else none
  match v with
  | some v => if v < base then some v else none
  | none => none

/-- JS `parseInt(s)` (radix auto-detected: `0x`/`0X` prefix means base 16,
otherwise base 10); `none` models `NaN`. -/
def jsParseInt (s : String) : Option Int :=
  let cs := s.data.dropWhile isJsWhitespace
  let signAndRest : Int × List Char :=
    match cs with
    | '-' :: rest => (-1, rest)
    | '+' :: rest => (1, rest)
    | _ => (1, cs)
  let baseAndDigits : Nat × List Char :=
    match signAndRest.2 with
    | '0' :: 'x' :: rest => (16, rest)
    | '0' :: 'X' :: rest => (16, rest)
    | _ => (10, signAndRest.2)
  let ds := baseAndDigits.2.takeWhile (fun c => (digitValue baseAndDigits.1 c).isSome)
  if ds.isEmpty then none
  else
    some (signAndRest.1 *
      (ds.foldl (fun acc c => acc * baseAndDigits.1 + (digitValue baseAndDigits.1 c).getD 0) 0 : Nat))

/-- Page parameter: `parseInt(req.query.page as string) || 1` (part_002 line 35).  An absent
query parameter is `undefined`, which `parseInt` coerces to the string
`"undefined"` and fails to parse. -/
def parsePageParam (raw : Option String) : Int :=
  match jsParseInt (match raw with | none => "undefined" | some s => s) with
  | none => 1
  | some v => if v = 0 then 1 else v

/-- Page size: `const limit = 60` (part_002 line 42). -/
def pageSize : Nat := 60

/-- The page slice the storage layer returns: `skip((page-1)*60).limit(60)`
over the filtered, sorted store.  Storage behaviour for a negative skip is
not modelled; the claims below constrain `page ≥ 1`. -/
def pageItems (docs : List RecipeDoc) (page : Int) : List RecipeDoc :=
  (docs.drop ((page - 1) * (pageSize : Int)).toNat).take pageSize

/-- The pagination envelope of part_002 lines 88-94. -/
structure PaginationInfo where
  currentPage : Int
  totalPages : Nat
  hasPreviousPage : Bool
  totalRecipes : Nat
  hasNextPage : Bool
deriving Repr, DecidableEq

/-- Envelope fields `totalPages = Math.ceil(totalCount / limit)`, `hasPreviousPage = page > 1`,
`hasNextPage = skip + recipes.length < totalCount` (part_002 lines 88-94),
with `Math.ceil` on the exact quotient rendered as integer ceiling division. -/
def paginationInfo (page : Int) (totalCount : Nat) (returnedCount : Nat) :
    PaginationInfo :=
  { currentPage := page
    totalPages := (totalCount + pageSize - 1) / pageSize
    hasPreviousPage := decide (1 < page)
    totalRecipes := totalCount
    hasNextPage := decide ((page - 1) * (pageSize : Int) + returnedCount < totalCount) }

/-- Stable insertion of a recipe into a list sorted by `createdAt`
descending; models the storage sort `{ createdAt: -1 }`. -/
def insertByCreatedAtDesc (r : RecipeDoc) : List RecipeDoc → List RecipeDoc
  | [] => [r]
  | x :: xs =>
      if x.createdAt ≤ r.createdAt then r :: x :: xs
      else x :: insertByCreatedAtDesc r xs

/-- Sort by creation date, newest first (part_002 line 72). -/
def sortByCreatedAtDesc (docs : List RecipeDoc) : List RecipeDoc :=
  docs.foldr insertByCreatedAtDesc []

/-- Response of GET /recipes: HTTP status, page items, envelope. -/
structure RecipesResponse where
  status : Nat
  items : List RecipeDoc
  pagination : PaginationInfo
deriving Repr, DecidableEq

/-- The whole GET /recipes handler (part_002 lines 25-104): build the filter
from the query parameters, find matching recipes sorted by creation date
descending with skip/limit, count matching documents, and answer 200 with
the page and the envelope. -/
def getRecipesResponse (store : List RecipeDoc)
    (ingredientsRaw anyFlag tagsRaw tagsAnyFlag createdBy pageRaw :
      Option String) : RecipesResponse :=
  let filter := buildRecipesFilter ingredientsRaw anyFlag tagsRaw tagsAnyFlag createdBy
  let page := parsePageParam pageRaw
  let matching := sortByCreatedAtDesc (store.filter (fun r => matchesFilter r filter))
  let items := pageItems matching page
  { status := 200
    items := items
    pagination := paginationInfo page matching.length items.length }

end RecipeBook

namespace RecipeBook

/-! ## Claim C1 -/

/-- C1: for every stored token list A and truthy raw query string, the
constraint built for that dimension matches iff (ANY mode) some normalized
token is in A, resp. (ALL mode) every normalized token is in A; the mode is
ANY exactly when the flag lowercases to `'true'` (an absent flag means ALL);
and an absent or empty raw string yields no constraint for the dimension. -/
theorem get_recipes_filter_all_any_semantics
    (A : List String) (raw : String) (flag : Option String) (h : raw ≠ "") :
    (matchesOpt A (tokenConstraint (some raw) flag) = true ↔
      (if isAnyTrue flag then ∃ t ∈ normalizeTokens raw, t ∈ A
       else ∀ t ∈ normalizeTokens raw, t ∈ A)) ∧
    (∀ s, isAnyTrue (some s) = true ↔
      (if strIsTruthy s then strToLower s else "false") = "true") ∧
    isAnyTrue none = false ∧
    (∀ f, tokenConstraint none f = none) ∧
    (∀ f, tokenConstraint (some "") f = none) := by
  refine ⟨?_, ?_, ?_, ?_, ?_⟩
  · have hdata : raw.data ≠ [] := fun hc => h (by cases raw; simp_all)
    have htruthy : optTruthy (some raw) = true := by
      simp [optTruthy, strIsTruthy, List.isEmpty_iff, hdata]
    have hne : (some raw).getD "" = raw := rfl
    cases hmode : isAnyTrue flag with
    | false =>
        simp only [tokenConstraint, htruthy, if_true, hmode, Bool.false_eq_true,
          if_false, matchesOpt, matchesConstraint, hne]
        rw [List.all_eq_true]
        constructor
        · intro hall t ht
          exact List.elem_iff.mp (hall t ht)
        · intro hall t ht
          exact List.elem_iff.mpr (hall t ht)
    | true =>
        simp only [tokenConstraint, htruthy, if_true, hmode, matchesOpt,
          matchesConstraint, hne]
        rw [List.any_eq_true]
        constructor
        · rintro ⟨t, ht, hc⟩
          exact ⟨t, ht, List.elem_iff.mp hc⟩
        · rintro ⟨t, ht, hc⟩
          exact ⟨t, ht, List.elem_iff.mpr hc⟩
  · intro s
    cases hs : strIsTruthy s with
    | true => simp [isAnyTrue, jsOrString, hs, beq_iff_eq]
    | false => simp [isAnyTrue, jsOrString, hs]; decide
  · decide
  · intro f; rfl
  · intro f; rfl

/-! ## Claims C3 and C4 -/

/-- A concrete recipe document used to instantiate theorems. -/
def sampleRecipe : RecipeDoc :=
  { id := "r1", title := "Cake", description := "d"
    ingredients := ["flour", "sugar"], tags := ["dessert"]
    instructions := "mix", createdBy := ⟨"u1"⟩, createdAt := 0 }

/-- Integer ceiling division by 60, as computed at part_002 line 90, agrees
with the exact rational ceiling `Math.ceil` computes. -/
theorem natCeilDiv_sixty_eq_rat_ceil (n : ℕ) :
    (((n + 59) / 60 : ℕ) : ℤ) = ⌈(n : ℚ) / 60⌉ := by
  have hdm := Nat.div_add_mod (n + 59) 60
  have hmlt : (n + 59) % 60 < 60 := Nat.mod_lt _ (by norm_num)
  set z := (n + 59) / 60 with hz
  have h1 : n ≤ 60 * z := by omega
  have h2 : 60 * z < n + 60 := by omega
  have h1q : (n : ℚ) ≤ 60 * z := by exact_mod_cast h1
  have h2q : (60 : ℚ) * z < n + 60 := by exact_mod_cast h2
  rw [eq_comm, Int.ceil_eq_iff]
  constructor
  · push_cast
    rw [lt_div_iff₀ (by norm_num : (0:ℚ) < 60)]
    nlinarith
  · push_cast
    rw [div_le_iff₀ (by norm_num : (0:ℚ) < 60)]
    nlinarith

/-- C3 (amended: with totalCount 287 page 5 returns 47 items, not 7):
for every store and page p ≥ 1, the envelope reports
`totalPages = ⌈totalCount / 60⌉`, `hasPreviousPage ↔ p > 1`,
`hasNextPage ↔ (p-1)*60 + returnedCount < totalCount`; the returned count is
`min 60 (totalCount - (p-1)*60)`; a page beyond `totalPages` yields an empty
item list with `hasNextPage = false`; the handler answers 200 regardless of
the page value; and for totalCount = 287: totalPages = 5, page 5 returns 47
items with `hasNextPage = false`, page 6 returns an empty list with
`hasPreviousPage = true` and `hasNextPage = false`. -/
theorem pagination_envelope_properties
    (docs : List RecipeDoc) (p : Int) (hp : 1 ≤ p) :
    ((paginationInfo p docs.length (pageItems docs p).length).totalPages : ℤ) =
        ⌈(docs.length : ℚ) / 60⌉ ∧
    ((paginationInfo p docs.length (pageItems docs p).length).hasPreviousPage = true ↔
        1 < p) ∧
    ((paginationInfo p docs.length (pageItems docs p).length).hasNextPage = true ↔
        (p - 1) * 60 + (pageItems docs p).length < docs.length) ∧
    (pageItems docs p).length = min 60 (docs.length - ((p - 1) * 60).toNat) ∧
    (((paginationInfo p docs.length (pageItems docs p).length).totalPages : ℤ) < p →
        pageItems docs p = [] ∧
        (paginationInfo p docs.length (pageItems docs p).length).hasNextPage = false) ∧
    (∀ q : Option String, (getRecipesResponse docs none none none none none q).status = 200) ∧
    (∀ docs₂ : List RecipeDoc, docs₂.length = 287 →
        (paginationInfo 5 287 47).totalPages = 5 ∧
        (pageItems docs₂ 5).length = 47 ∧
        (paginationInfo 5 287 47).hasNextPage = false ∧
        pageItems docs₂ 6 = [] ∧
        (paginationInfo 6 287 0).hasPreviousPage = true ∧
        (paginationInfo 6 287 0).hasNextPage = false) := by
  have hlen : ∀ (ds : List RecipeDoc) (q : Int),
      (pageItems ds q).length = min 60 (ds.length - ((q - 1) * 60).toNat) := by
    intro ds q
    simp [pageItems, pageSize, List.length_take, List.length_drop]
  have hempty : ∀ (ds : List RecipeDoc) (q : Int),
      (ds.length : ℤ) ≤ (q - 1) * 60 → pageItems ds q = [] := by
    intro ds q hq
    have : ds.length ≤ ((q - 1) * (pageSize : Int)).toNat := by
      simp only [pageSize]; omega
    simp [pageItems, List.drop_eq_nil_of_le this]
  refine ⟨?_, ?_, ?_, hlen docs p, ?_, ?_, ?_⟩
  · simpa [paginationInfo, pageSize] using natCeilDiv_sixty_eq_rat_ceil docs.length
  · simp [paginationInfo]
  · simp [paginationInfo, pageSize]
  · intro hlt
    have hdm := Nat.div_add_mod (docs.length + 59) 60
    have hmlt : (docs.length + 59) % 60 < 60 := Nat.mod_lt _ (by norm_num)
    have htp : (docs.length : ℤ) ≤ (p - 1) * 60 := by
      simp only [paginationInfo, pageSize] at hlt
      omega
    have hnil := hempty docs p htp
    refine ⟨hnil, ?_⟩
    simp only [hnil, paginationInfo, pageSize, List.length_nil]
    simp only [decide_eq_false_iff_not, not_lt]
    push_cast
    omega
  · intro q; rfl
  · intro docs₂ h287
    refine ⟨by decide, ?_, by decide, ?_, by decide, by decide⟩
    · rw [hlen docs₂ 5, h287]; decide
    · exact hempty docs₂ 6 (by rw [h287]; norm_num)

/-- Witness for C3 at page 5 over a store of 287 recipes. -/
theorem pagination_envelope_properties_witness :
    (1 : ℤ) ≤ 5 ∧
    ((paginationInfo 5 (List.replicate 287 sampleRecipe).length
        (pageItems (List.replicate 287 sampleRecipe) 5).length).totalPages : ℤ) =
      ⌈((List.replicate 287 sampleRecipe).length : ℚ) / 60⌉ := by
  refine ⟨by decide, ?_⟩
  exact (pagination_envelope_properties (List.replicate 287 sampleRecipe) 5
    (by decide)).1

/-- Counterexample to C3 as stated: with totalCount = 287, page 5 returns 47
items, not 7. -/
theorem pagination_page5_of_287_returns_47_not_7 :
    (pageItems (List.replicate 287 sampleRecipe) 5).length = 47 ∧
    ¬ (pageItems (List.replicate 287 sampleRecipe) 5).length = 7 := by
  have h : (pageItems (List.replicate 287 sampleRecipe) 5).length = 47 := by
    decide
  exact ⟨h, by rw [h]; decide⟩

/-- C4 (amended: a value parsing to a negative integer is used as-is,
only absence, non-numeric values and 0 are coerced to 1): the pagination
planner uses page 1 when the raw parameter is absent, fails to parse, or
parses to 0; any other parsed value, including negatives, is used directly;
the page size constant is 60 and the slice starts at `(page - 1) * 60`. -/
theorem parse_page_coercion :
    parsePageParam none = 1 ∧
    (∀ s, jsParseInt s = none → parsePageParam (some s) = 1) ∧
    (∀ s, jsParseInt s = some 0 → parsePageParam (some s) = 1) ∧
    (∀ s v, jsParseInt s = some v → v ≠ 0 → parsePageParam (some s) = v) ∧
    pageSize = 60 ∧
    (∀ docs page, pageItems docs page =
      (docs.drop ((page - 1) * 60).toNat).take 60) := by
  refine ⟨by decide, ?_, ?_, ?_, rfl, ?_⟩
  · intro s hs; simp [parsePageParam, hs]
  · intro s hs; simp [parsePageParam, hs]
  · intro s v hs hv; simp [parsePageParam, hs, hv]
  · intro docs page; rfl

/-- Witness for C4: non-numeric `"abc"` and numeric `"3"`. -/
theorem parse_page_coercion_witness :
    jsParseInt "abc" = none ∧ parsePageParam (some "abc") = 1 ∧
    jsParseInt "3" = some 3 ∧ (3 : ℤ) ≠ 0 ∧ parsePageParam (some "3") = 3 := by
  refine ⟨by decide, ?_, by decide, by decide, ?_⟩
  · exact parse_page_coercion.2.1 "abc" (by decide)
  · exact parse_page_coercion.2.2.2.1 "3" 3 (by decide) (by decide)

/-- Counterexample to C4 as stated: the raw value `"-2"` is less than 1 but
is not coerced to 1 — the planner uses page -2. -/
theorem parse_page_negative_passthrough :
    parsePageParam (some "-2") = -2 ∧ ¬ parsePageParam (some "-2") = 1 := by
  exact ⟨by decide, by decide⟩

/-- Witness for C1 at a concrete input: raw `"Flour, Sugar"`, flag absent
(ALL mode) against stored `["flour", "sugar", "eggs"]`. -/
theorem get_recipes_filter_all_any_semantics_witness :
    ("Flour, Sugar" : String) ≠ "" ∧
    (matchesOpt ["flour", "sugar", "eggs"]
        (tokenConstraint (some "Flour, Sugar") none) = true ↔
      (if isAnyTrue none then
          ∃ t ∈ normalizeTokens "Flour, Sugar", t ∈ ["flour", "sugar", "eggs"]
       else ∀ t ∈ normalizeTokens "Flour, Sugar",
          t ∈ ["flour", "sugar", "eggs"])) := by
  refine ⟨by decide, ?_⟩
  exact (get_recipes_filter_all_any_semantics ["flour", "sugar", "eggs"]
    "Flour, Sugar" none (by decide)).1

/-! ## Claim C7 -/

/-- Counterexample to C7 as stated: the normalizer does not drop empty
tokens — `"a,,b"` normalizes to `["a", "", "b"]`, which contains the empty
token, unlike the spec-side normalizer. -/
theorem normalize_keeps_empty_tokens :
    normalizeTokens "a,,b" = ["a", "", "b"] ∧
    "" ∈ normalizeTokens "a,,b" ∧
    specNormalizeTokens "a,,b" = ["a", "b"] := by decide

/-- C7 (amended: empty tokens are retained, not dropped): the normalizer
produces exactly one token per comma-separated field, every produced token
is the trimmed lowercase image of some field, the spec-side normalizer is
the same sequence with empty tokens filtered out, an absent or empty raw
string omits the filter dimension entirely, and retained empty tokens are
live: an ALL-mode query `"a,,b"` fails against stored `["a", "b"]`. -/
theorem normalize_tokens_properties :
    (∀ raw, (normalizeTokens raw).length = (strSplitOn raw ',').length) ∧
    (∀ raw t, t ∈ normalizeTokens raw →
      ∃ f ∈ strSplitOn raw ',', t = strToLower (strTrim f)) ∧
    (∀ raw, specNormalizeTokens raw =
      (normalizeTokens raw).filter (fun t => strIsTruthy t)) ∧
    (∀ f, tokenConstraint none f = none) ∧
    (∀ f, tokenConstraint (some "") f = none) ∧
    matchesOpt ["a", "b"] (tokenConstraint (some "a,,b") none) = false := by
  refine ⟨?_, ?_, ?_, fun f => rfl, fun f => rfl, by decide⟩
  · intro raw; simp [normalizeTokens]
  · intro raw t ht
    rcases List.mem_map.mp ht with ⟨f, hf, hft⟩
    exact ⟨f, hf, hft.symm⟩
  · intro raw; rfl

/-- Witness for C7 at the concrete raw string `" A ,b"`. -/
theorem normalize_tokens_properties_witness :
    (normalizeTokens " A ,b").length = (strSplitOn " A ,b" ',').length ∧
    ("a" ∈ normalizeTokens " A ,b" ∧
      ∃ f ∈ strSplitOn " A ,b" ',', "a" = strToLower (strTrim f)) := by
  refine ⟨normalize_tokens_properties.1 " A ,b", by decide, ?_⟩
  exact normalize_tokens_properties.2.1 " A ,b" "a" (by decide)

end RecipeBook

namespace RecipeBook

/-! ## Claim C2 — POST /recipes (part_002, lines 238-286)

The route copies `title, ingredients, instructions, tags, description` from
the request body into the new document verbatim; neither the route nor
recipeSchema (src/src/model/Recipe.ts) lowercases the `[String]` fields —
even though the IRecipe interface comments call both "normalized to
lowercase". -/

/-- Document created by POST /recipes: body fields stored verbatim,
`createdBy` taken from the authenticated token, `createdAt` defaulted by
the schema. -/
def createRecipe (newId : String) (title description : String)
    (ingredients tags : List String) (instructions : String)
    (createdBy : ObjectRef) (now : Nat) : RecipeDoc :=
  { id := newId, title := title, description := description
    ingredients := ingredients, tags := tags, instructions := instructions
    createdBy := createdBy, createdAt := now }

/-- C2 evaluation at the failing input: posting ingredients
`["Flour", "Sugar"]` stores them verbatim, not lowercased, and the stored
recipe is then missed by the lowercase-normalized ALL query
`ingredients=flour,sugar`. -/
theorem post_recipes_stores_ingredients_verbatim :
    (createRecipe "r2" "Cake" "d" ["Flour", "Sugar"] [] "mix" ⟨"u1"⟩ 0).ingredients
        = ["Flour", "Sugar"] ∧
    ¬ (createRecipe "r2" "Cake" "d" ["Flour", "Sugar"] [] "mix" ⟨"u1"⟩ 0).ingredients
        = ["flour", "sugar"] ∧
    matchesOpt
      (createRecipe "r2" "Cake" "d" ["Flour", "Sugar"] [] "mix" ⟨"u1"⟩ 0).ingredients
      (tokenConstraint (some "flour,sugar") none) = false := by decide

/-! ## Claim C5 — createdBy query parameter (part_002, lines 30-68)

Line 31 parses `req.query.createdBy`; no line of the handler assigns it into
the filter object (unlike the earlier revision in src/src/routes/data.ts,
lines 46-49, whose filter did include it). -/

/-- C5 evaluation: the built filter is independent of the createdBy query
parameter, and concretely a recipe created by `bob` is matched and returned
by a request that asked for `createdBy=alice`. -/
theorem created_by_filter_ignored :
    (∀ i a t ta c₁ c₂, buildRecipesFilter i a t ta c₁ = buildRecipesFilter i a t ta c₂) ∧
    matchesFilter { sampleRecipe with createdBy := ⟨"bob"⟩ }
      (buildRecipesFilter none none none none (some "alice")) = true ∧
    (getRecipesResponse [{ sampleRecipe with createdBy := ⟨"bob"⟩ }]
        none none none none (some "alice") none).items
      = [{ sampleRecipe with createdBy := ⟨"bob"⟩ }] := by
  refine ⟨fun i a t ta c₁ c₂ => rfl, by decide, by decide⟩

end RecipeBook

namespace RecipeBook

/-! ## Claim C6 — ownership guard (part_002, lines 288-352 and 363-416)

PUT compares `recipe.createdBy.toString() !== userId` (both sides strings);
DELETE compares `recipe.createdBy !== userId`, a raw ObjectId against a
string.  ECMAScript strict equality between an object and a string is false
without any coercion, so the DELETE comparison never succeeds. -/

/-- ECMAScript strict equality between an ObjectId object and a string:
the operands have different types, so `===` is false (and `!==` true)
regardless of the contents. -/
def jsStrictEqRefStr (r : ObjectRef) (s : String) : Bool :=
  let _ := r
  let _ := s
  false

/-- Status of PUT /recipes/:id (part_002 lines 288-352): 401 when the
caller identity is falsy, 404 when the recipe is absent, 403 unless
`recipe.createdBy.toString() === userId`, else 200 with the update applied. -/
def putRecipeStatus (recipe : Option RecipeDoc) (userId : String) : Nat :=
  if !strIsTruthy userId then 401
  else
    match recipe with
    | none => 404
    | some r => if r.createdBy.oid == userId then 200 else 403

/-- Status of DELETE /recipes/:id (part_002 lines 363-416): 404 when the
recipe is absent, 403 unless `recipe.createdBy === userId` (object vs
string), else 200 with the recipe deleted. -/
def deleteRecipeStatus (recipe : Option RecipeDoc) (userId : String) : Nat :=
  match recipe with
  | none => 404
  | some r => if jsStrictEqRefStr r.createdBy userId then 200 else 403

/-- C6 evaluation at the failing input: caller `"u1"` owns `sampleRecipe`
(`createdBy.oid = "u1"`), PUT authorizes the owner (200) and rejects a
stranger (403), but DELETE returns 403 even to the owner — the two routes do
not compare the creator reference under the same normalization. -/
theorem delete_ownership_check_never_passes :
    sampleRecipe.createdBy.oid = "u1" ∧
    putRecipeStatus (some sampleRecipe) "u1" = 200 ∧
    putRecipeStatus (some sampleRecipe) "u2" = 403 ∧
    deleteRecipeStatus (some sampleRecipe) "u1" = 403 ∧
    deleteRecipeStatus (some sampleRecipe) "u2" = 403 := by decide

end RecipeBook

namespace RecipeBook

/-! ## Claim C8 — POST /register (part_000, lines 47-105)

UserSchema (src/src/model/Users.ts) declares email with `trim` and
`lowercase` setters and a unique index; the stored emails are therefore
normalized.  The route pre-checks `User.findOne({ email })`, then hashes and
saves.  A duplicate that slips past the pre-check (race window, two
registrations between check and insert) makes `newUser.save()` throw the
storage layer's duplicate-key error, which the route's generic catch turns
into a 500 with the raw message — it is not translated to the 400
duplicate-email response. -/

/-- Normalization applied to emails by the schema setters (trim then
lowercase). -/
def normalizeEmail (e : String) : String :=
  strToLower (strTrim e)

/-- Outcome of POST /register. -/
inductive RegisterOutcome where
  | emailInUse400
  | usernameTaken400
  | created201
  | storageError500 (message : String)
deriving Repr, DecidableEq

/-- POST /register against two storage snapshots: `emailsAtCheck` /
`usernamesAtCheck` are what the pre-check queries observe, `emailsAtInsert`
is what the unique index sees when `save()` runs; the two differ exactly in
the race window.  Stored emails are schema-normalized, and setters apply to
the query filters as well. -/
def registerOutcome (emailsAtCheck usernamesAtCheck emailsAtInsert : List String)
    (username email : String) : RegisterOutcome :=
  if emailsAtCheck.contains (normalizeEmail email) then .emailInUse400
  else if usernamesAtCheck.contains (strTrim username) then .usernameTaken400
  else if emailsAtInsert.contains (normalizeEmail email) then
    .storageError500 "E11000 duplicate key error"
  else .created201

/-- C8 evaluation at the failing input: a duplicate email that reaches the
insert (pre-check snapshot empty, insert snapshot already holding the
normalized email) yields the generic 500, not the 400 duplicate-email
response; the pre-check path itself does return 400, including for a
case-differing duplicate. -/
theorem register_race_duplicate_email_returns_500 :
    registerOutcome [] [] ["a@b.com"] "alice" "a@b.com"
        = .storageError500 "E11000 duplicate key error" ∧
    ¬ registerOutcome [] [] ["a@b.com"] "alice" "a@b.com" = .emailInUse400 ∧
    registerOutcome ["a@b.com"] [] ["a@b.com"] "alice" "A@B.com"
        = .emailInUse400 := by decide

end RecipeBook

namespace RecipeBook

/-! ## Claims C9 and C10 — POST /recipes/:id/save (part_002, lines 418-465)

The handler loads the caller's user document, defaults a missing
`savedRecipes` to `[]`, and toggles membership of the recipe id: if some
saved id's string form equals `recipeId` it filters all such ids out,
otherwise it pushes `recipeId`.  No lookup of the recipe itself is ever
performed. -/

/-- Toggle of the saved-recipes list (ids in their string form). -/
def toggleSave (saved : List String) (recipeId : String) : List String :=
  if saved.any (fun i => i == recipeId) then saved.filter (fun i => i != recipeId)
  else saved ++ [recipeId]

/-- A user document (UserSchema in src/src/model/Users.ts), savedRecipes as
id strings. -/
structure UserDoc where
  id : String
  username : String
  email : String
  savedRecipes : List String
deriving Repr, DecidableEq

/-- Response of POST /recipes/:id/save: 404 when the caller's user record is
absent, otherwise 200 with the toggled saved list persisted. -/
def saveRecipeResponse (user : Option UserDoc) (recipeId : String) :
    Nat × List String :=
  match user with
  | none => (404, [])
  | some u => (200, toggleSave u.savedRecipes recipeId)

/-- Whether some recipe in the store has the given id. -/
def recipeExists (store : List RecipeDoc) (recipeId : String) : Bool :=
  store.any (fun r => r.id == recipeId)

/-- C9: toggling twice restores membership of the toggled id, and each
single toggle leaves membership of every other id unchanged. -/
theorem save_toggle_twice_restores_membership (saved : List String) (rid : String) :
    (rid ∈ toggleSave (toggleSave saved rid) rid ↔ rid ∈ saved) ∧
    (∀ s, s ≠ rid → (s ∈ toggleSave saved rid ↔ s ∈ saved)) := by
  have hmemIff : ∀ (l : List String), l.any (fun i => i == rid) = true ↔ rid ∈ l := by
    intro l
    rw [List.any_eq_true]
    constructor
    · rintro ⟨x, hx, he⟩; rwa [eq_of_beq he] at hx
    · intro h; exact ⟨rid, h, by simp⟩
  constructor
  · by_cases hmem : rid ∈ saved
    · have h1 : saved.any (fun i => i == rid) = true := (hmemIff saved).mpr hmem
      have h2 : rid ∉ saved.filter (fun i => i != rid) := by
        intro hc
        have := (List.mem_filter.mp hc).2
        simp at this
      have h3 : (saved.filter (fun i => i != rid)).any (fun i => i == rid) = false := by
        rw [← Bool.not_eq_true, hmemIff]
        exact h2
      simp only [toggleSave, h1, if_true, h3, Bool.false_eq_true, if_false]
      simp [hmem]
    · have h1 : saved.any (fun i => i == rid) = false := by
        rw [← Bool.not_eq_true, hmemIff]
        exact hmem
      have h2 : (saved ++ [rid]).any (fun i => i == rid) = true := by
        rw [hmemIff]; simp
      simp only [toggleSave, h1, Bool.false_eq_true, if_false, h2, if_true]
      constructor
      · intro hc
        have := List.mem_filter.mp hc
        rcases List.mem_append.mp this.1 with h | h
        · exact absurd h hmem
        · have heq : rid ≠ rid := by simpa using this.2
          exact absurd rfl heq
      · intro hc; exact absurd hc hmem
  · intro s hs
    by_cases hmem : rid ∈ saved
    · have h1 : saved.any (fun i => i == rid) = true := (hmemIff saved).mpr hmem
      simp only [toggleSave, h1, if_true]
      rw [List.mem_filter]
      simp [hs]
    · have h1 : saved.any (fun i => i == rid) = false := by
        rw [← Bool.not_eq_true, hmemIff]
        exact hmem
      simp only [toggleSave, h1, Bool.false_eq_true, if_false]
      simp [hs]

/-- Witness for C9: toggle `"a"` twice on `["a", "b"]`, and `"b"` survives
one toggle. -/
theorem save_toggle_twice_restores_membership_witness :
    ("a" ∈ toggleSave (toggleSave ["a", "b"] "a") "a" ↔ "a" ∈ ["a", "b"]) ∧
    ("b" : String) ≠ "a" ∧
    ("b" ∈ toggleSave ["a", "b"] "a" ↔ "b" ∈ ["a", "b"]) := by
  refine ⟨(save_toggle_twice_restores_membership ["a", "b"] "a").1, by decide, ?_⟩
  exact (save_toggle_twice_restores_membership ["a", "b"] "a").2 "b" (by decide)

/-- C10: the save handler never consults the recipe store — for any store
in which the id names no recipe, a caller with an existing user record still
gets 200 and the dangling id is inserted into savedRecipes. -/
theorem save_dangling_recipe_id_accepted
    (store : List RecipeDoc) (u : UserDoc) (rid : String)
    (hdangling : recipeExists store rid = false)
    (hnew : rid ∉ u.savedRecipes) :
    (saveRecipeResponse (some u) rid).1 = 200 ∧
    rid ∈ (saveRecipeResponse (some u) rid).2 := by
  refine ⟨rfl, ?_⟩
  have h1 : u.savedRecipes.any (fun i => i == rid) = false := by
    rw [← Bool.not_eq_true, List.any_eq_true]
    rintro ⟨x, hx, he⟩
    rw [eq_of_beq he] at hx
    exact hnew hx
  simp [saveRecipeResponse, toggleSave, h1]

/-- Witness for C10: user `"u1"` saves the id `"ghost"`, which names no
recipe in a store holding only `sampleRecipe`. -/
theorem save_dangling_recipe_id_accepted_witness :
    recipeExists [sampleRecipe] "ghost" = false ∧
    ("ghost" : String) ∉ ([] : List String) ∧
    (saveRecipeResponse (some ⟨"u1", "alice", "a@b.com", []⟩) "ghost").1 = 200 ∧
    "ghost" ∈ (saveRecipeResponse (some ⟨"u1", "alice", "a@b.com", []⟩) "ghost").2 := by
  refine ⟨by decide, by decide, ?_, ?_⟩
  · exact (save_dangling_recipe_id_accepted [sampleRecipe]
      ⟨"u1", "alice", "a@b.com", []⟩ "ghost" (by decide) (by decide)).1
  · exact (save_dangling_recipe_id_accepted [sampleRecipe]
      ⟨"u1", "alice", "a@b.com", []⟩ "ghost" (by decide) (by decide)).2

end RecipeBook
